import Mathlib

/-!
Shallow embedding of the Heston autocallable pricer and calibration code.

Dates are modelled as integers (QuantLib serial numbers); monetary amounts,
levels and barriers as rationals.  External collaborators (QuantLib path
generator, day counter, discount curve, calibration helpers) are abstracted
as function parameters; everything the repository's own Python code computes
is embedded faithfully, branch for branch.
-/

/-- Non-numeric outcomes of the embedded pricer.  The first four mirror the
Python exceptions the source can raise: indexing an empty date array, `max`
of an empty dict-values view, a missing past-fixing key, and numpy's
rejection of a negative array dimension.  `nanMean` marks the outcome in
which the program returns (not raises) the float NaN produced by `np.mean`
of an empty payoff list; NaN has no rational counterpart, so the embedding
keeps it distinct from every numeric result. -/
inductive PricingError where
  | indexError
  | emptyMax
  | missingFixing
  | negativePaths
  | nanMean
deriving DecidableEq

/-- Market context held by `HestonPricer.__init__`: valuation date, strike,
and the external curve/day-count collaborators (`risk_free_curve.discount`
and `day_counter.yearFraction`). -/
structure PricerCtx where
  valuation_date : ℤ
  strike_price : ℚ
  discount : ℤ → ℚ
  yearFraction : ℤ → ℤ → ℚ

/-- The `product_specs` dictionary consumed by `price_autocallable_note`.
`past_fixings` is the date-to-level mapping; `final_payoff_formula` the
terminal payoff callable. -/
structure ProductSpecs where
  coupon_dates : List ℤ
  notional : ℚ
  autocall_barrier : ℚ
  coupon_barrier : ℚ
  protection_barrier : ℚ
  coupon_rate : ℚ
  has_memory : Bool
  past_fixings : List (ℤ × ℚ)
  final_payoff_formula : ℚ → ℚ

/-- `time_grid` of `generate_paths`: year fractions from the first
observation date to each observation date.  The Python list comprehension
never evaluates `observation_dates[0]` when the list is empty, so the empty
case yields an empty grid rather than an error. -/
def timeGrid (yearFraction : ℤ → ℤ → ℚ) : List ℤ → List ℚ
  | [] => []
  | d0 :: rest => (d0 :: rest).map (fun d => yearFraction d0 d)

/-- `grid_steps = (time_grid.shape[0] - 1) * 2` of `generate_paths`
(computed with integer arithmetic, so it can be negative for short grids). -/
def gridSteps (time_grid : List ℚ) : ℤ :=
  ((time_grid.length : ℤ) - 1) * 2

/-- `HestonPricer.generate_paths`.  The external QuantLib generator chain
(uniform generator of dimension `grid_steps`, Gaussian sequence generator,
`GaussianMultiPathGenerator` over `time_grid`) is abstracted by `pathSource`,
which receives `grid_steps` and `time_grid` and yields the asset component of
the i-th drawn multipath.  The function performs no argument validation of
its own; the only failure is numpy's rejection of a negative first dimension
in `np.zeros(shape=(num_paths, ...))`. -/
def generate_paths (yearFraction : ℤ → ℤ → ℚ) (observation_dates : List ℤ)
    (pathSource : ℤ → List ℚ → ℕ → List ℚ) (num_paths : ℤ) :
    Except PricingError (List (List ℚ)) :=
  if num_paths < 0 then
    Except.error PricingError.negativePaths
  else
    Except.ok ((List.range num_paths.toNat).map
      (pathSource (gridSteps (timeGrid yearFraction observation_dates))
        (timeGrid yearFraction observation_dates)))

/-- Result of one iteration of the observation-date loop body
(lines 184-205 of `price_autocallable_note`): the payoff set in this
iteration, the updated `unpaid_coupons`, and whether `has_been_called` was
set in this iteration. -/
structure StepResult where
  payoff : ℚ
  unpaid : ℕ
  called : Bool
deriving DecidableEq

/-- The body of the per-date loop of `price_autocallable_note`, entered with
`has_been_called = False`: final-date branch (coupon barrier, then
protection barrier, then terminal payoff formula) when the date equals the
expiration date, otherwise the intermediate branch (autocall barrier, then
coupon barrier, then unpaid-coupon increment).  `mem` is
`memory_factor = int(has_memory)` and `unpaid` the current
`unpaid_coupons`. -/
def observeStep (spec : ProductSpecs) (strike : ℚ) (expiration : ℤ) (mem : ℕ)
    (date : ℤ) (level : ℚ) (unpaid : ℕ) : StepResult :=
  if date = expiration then
    if spec.coupon_barrier ≤ level then
      ⟨spec.notional * (1 + spec.coupon_rate * ((1 + unpaid * mem : ℕ) : ℚ)), unpaid, false⟩
    else if spec.protection_barrier ≤ level then
      ⟨spec.notional, unpaid, false⟩
    else
      ⟨spec.notional * spec.final_payoff_formula (level * strike), unpaid, false⟩
  else
    if spec.autocall_barrier ≤ level then
      ⟨spec.notional * (1 + spec.coupon_rate * ((1 + unpaid * mem : ℕ) : ℚ)), unpaid, true⟩
    else if spec.coupon_barrier ≤ level then
      ⟨spec.notional * (spec.coupon_rate * ((1 + unpaid * mem : ℕ) : ℚ)), 0, false⟩
    else
      ⟨0, unpaid + 1, false⟩

/-- The per-path mutable state of `price_autocallable_note`'s loop:
`total_pv`, `unpaid_coupons`, `has_been_called`. -/
structure StepState where
  total_pv : ℚ
  unpaid_coupons : ℕ
  has_been_called : Bool
deriving DecidableEq

/-- The per-path loop of `price_autocallable_note` over the zipped
(coupon date, normalized level) pairs: once `has_been_called` holds the loop
breaks; otherwise the loop body runs and a payoff at a date strictly after
the valuation date is discounted and accumulated. -/
def pathLoop (ctx : PricerCtx) (spec : ProductSpecs) (expiration : ℤ) (mem : ℕ) :
    List (ℤ × ℚ) → StepState → StepState
  | [], s => s
  | (date, level) :: rest, s =>
    if s.has_been_called then s
    else
      pathLoop ctx spec expiration mem rest
        ⟨(if ctx.valuation_date < date then
            s.total_pv +
              (observeStep spec ctx.strike_price expiration mem date level s.unpaid_coupons).payoff *
                ctx.discount date
          else s.total_pv),
         (observeStep spec ctx.strike_price expiration mem date level s.unpaid_coupons).unpaid,
         (observeStep spec ctx.strike_price expiration mem date level s.unpaid_coupons).called⟩

/-- `memory_factor = int(has_memory)`. -/
def memoryFactor (spec : ProductSpecs) : ℕ :=
  if spec.has_memory then 1 else 0

/-- The present value contributed by one path: run the loop over
`zip(coupon_dates, path / strike_price)` from the fresh state and read off
the accumulated `total_pv`. -/
def pathPV (ctx : PricerCtx) (spec : ProductSpecs) (expiration : ℤ) (path : List ℚ) : ℚ :=
  (pathLoop ctx spec expiration (memoryFactor spec)
    (spec.coupon_dates.zip (path.map (fun x => x / ctx.strike_price)))
    ⟨0, 0, false⟩).total_pv

/-- `np.mean(np.array(payoff_pvs))`: the arithmetic mean of the per-path
present values.  numpy's mean of an empty array is the float NaN (returned,
not raised); NaN is not representable among the rationals, so the empty
mean is `none` and every non-empty mean is `some (sum / length)`. -/
def computePV (ctx : PricerCtx) (spec : ProductSpecs) (expiration : ℤ)
    (paths : List (List ℚ)) : Option ℚ :=
  match paths.map (pathPV ctx spec expiration) with
  | [] => none
  | pv :: pvs => some ((pv :: pvs).sum / ((pv :: pvs).length : ℚ))

/-- Lines 156-214 of `price_autocallable_note`: build the observation dates
(valuation date followed by the strictly future coupon dates), simulate,
drop the time-zero column, fold already-fixed past levels in front of every
simulated row (a missing fixing raises a key error), and average the
per-path present values; an empty path batch makes the program return the
NaN mean, kept distinct from every numeric result. -/
def priceMC (ctx : PricerCtx) (spec : ProductSpecs)
    (pathSource : ℤ → List ℚ → ℕ → List ℚ) (num_paths : ℤ) (expiration : ℤ) :
    Except PricingError ℚ :=
  match generate_paths ctx.yearFraction
      (ctx.valuation_date :: spec.coupon_dates.filter (fun d => ctx.valuation_date < d))
      pathSource num_paths with
  | Except.error e => Except.error e
  | Except.ok batch =>
    match spec.coupon_dates.filter (fun d => d ≤ ctx.valuation_date) with
    | [] =>
      match computePV ctx spec expiration (batch.map List.tail) with
      | none => Except.error PricingError.nanMean
      | some m => Except.ok m
    | p :: ps =>
      match (p :: ps).mapM (fun d => List.lookup d spec.past_fixings) with
      | none => Except.error PricingError.missingFixing
      | some past_vals =>
        match computePV ctx spec expiration
            ((batch.map List.tail).map (fun row => past_vals ++ row)) with
        | none => Except.error PricingError.nanMean
        | some m => Except.ok m

/-- `HestonPricer.price_autocallable_note`.  `coupon_dates[-1]` and
`coupon_dates[0]` on an empty array raise an index error; the two
short-circuits of lines 149-154 come first (`max` of an empty dict-values
view raises); otherwise the Monte Carlo valuation runs. -/
def price_autocallable_note (ctx : PricerCtx) (spec : ProductSpecs)
    (pathSource : ℤ → List ℚ → ℕ → List ℚ) (num_paths : ℤ) :
    Except PricingError ℚ :=
  match spec.coupon_dates.getLast?, spec.coupon_dates.head? with
  | some expiration, some d0 =>
    if expiration ≤ ctx.valuation_date then Except.ok 0
    else if d0 ≤ ctx.valuation_date then
      match spec.past_fixings.map Prod.snd with
      | [] => Except.error PricingError.emptyMax
      | v :: vs =>
        if spec.autocall_barrier * ctx.strike_price ≤ vs.foldl max v then Except.ok 0
        else priceMC ctx spec pathSource num_paths expiration
    else priceMC ctx spec pathSource num_paths expiration
  | _, _ => Except.error PricingError.indexError

/-- The observable behaviour of an injected optimizer
(`scipy.optimize.differential_evolution` by default): the ordered list of
parameter vectors at which it evaluates the objective during
`optimizer(objective, bounds)`, and the best vector `result.x` it returns.
Each objective evaluation mutates the single shared model via
`model.setParams(params)`. -/
structure OptimizerRun where
  evals : List (List ℚ)
  best : List ℚ

/-- The shared model's parameter vector once the optimizer call returns:
every objective evaluation overwrote it, so it holds the parameters of the
last evaluation (or the construction-time parameters if the optimizer never
evaluated the objective). -/
def lastEvalParams (init : List ℚ) (run : OptimizerRun) : List ℚ :=
  run.evals.foldl (fun _ p => p) init

/-- Parameters of the model returned by
`HestonPricer.calibrate_heston_model` (heston_pricer.py lines 121-124): the
code runs `optimizer(objective_function, parameter_bounds)`, discards its
return value, and returns the model as the optimizer's evaluations left
it. -/
def hestonCalibrateModelParams (init : List ℚ) (run : OptimizerRun) : List ℚ :=
  lastEvalParams init run

/-- Parameters of the model returned by `calibrate_heston_model`
(calibration.py lines 60-65): after the optimizer run the code executes
`model.setParams(ql.Array(result.x))`, overwriting whatever the last
objective evaluation left, before returning. -/
def calibrationCalibrateModelParams (init : List ℚ) (run : OptimizerRun) : List ℚ :=
  let _paramsAfterRun := lastEvalParams init run
  run.best

/-- `cost_function` of calibration.py lines 54-57:
`np.sqrt(np.sum(np.square(errors)))` where `errors` are the calibration
helpers' errors at the given parameters (the helpers are external
collaborators, abstracted by `errs`). -/
noncomputable def cost_function (errs : List ℚ → List ℝ) (params : List ℚ) : ℝ :=
  Real.sqrt (((errs params).map (fun e => e ^ 2)).sum)

/-- `objective_function` of heston_pricer.py lines 114-119:
`np.sqrt(np.sum(np.abs(errors)))` — the square root of the sum of the
absolute values of the helper errors, not of their squares. -/
noncomputable def objective_function (errs : List ℚ → List ℝ) (params : List ℚ) : ℝ :=
  Real.sqrt (((errs params).map (fun e => |e|)).sum)

/-- Claim C1: the calibration operation is specified to return a
model/process whose parameters equal the optimizer's best-found vector.
calibration.py does apply `result.x` before returning, but
`HestonPricer.calibrate_heston_model` discards the optimizer's result: for
an optimizer that evaluates the objective at `[1,1,1,1,1]` and then at
`[2,2,2,2,2]` while returning best vector `[1,1,1,1,1]`, the returned model
keeps the last-evaluated parameters `[2,2,2,2,2]`, not the best vector. -/
theorem hestonCalibrate_keeps_last_eval_not_best :
    hestonCalibrateModelParams [0, 0, 0, 0, 0]
        ⟨[[1, 1, 1, 1, 1], [2, 2, 2, 2, 2]], [1, 1, 1, 1, 1]⟩ = [2, 2, 2, 2, 2] ∧
    hestonCalibrateModelParams [0, 0, 0, 0, 0]
        ⟨[[1, 1, 1, 1, 1], [2, 2, 2, 2, 2]], [1, 1, 1, 1, 1]⟩ ≠
      (⟨[[1, 1, 1, 1, 1], [2, 2, 2, 2, 2]], [1, 1, 1, 1, 1]⟩ : OptimizerRun).best ∧
    calibrationCalibrateModelParams [0, 0, 0, 0, 0]
        ⟨[[1, 1, 1, 1, 1], [2, 2, 2, 2, 2]], [1, 1, 1, 1, 1]⟩ =
      (⟨[[1, 1, 1, 1, 1], [2, 2, 2, 2, 2]], [1, 1, 1, 1, 1]⟩ : OptimizerRun).best := by
  refine ⟨rfl, by decide, rfl⟩

/-- Claim C2, counterexample: with a single calibration constraint whose
error is 3, heston_pricer.py's `objective_function` evaluates to
`sqrt 3`, not to the claimed root-sum-of-squares `sqrt (3 ^ 2) = 3`. -/
theorem objective_function_not_root_sum_of_squares :
    objective_function (fun _ => [(3 : ℝ)]) [] ≠
      Real.sqrt (([(3 : ℝ)].map (fun e => e ^ 2)).sum) := by
  intro h
  have h3 : objective_function (fun _ => [(3 : ℝ)]) [] = Real.sqrt 3 := by
    simp [objective_function]
  have h9 : Real.sqrt (([(3 : ℝ)].map (fun e => e ^ 2)).sum) = 3 := by
    simp only [List.map_cons, List.map_nil, List.sum_cons, List.sum_nil, add_zero]
    rw [show ((3 : ℝ) ^ 2) = 3 ^ 2 from rfl, Real.sqrt_sq (by norm_num)]
  rw [h3, h9] at h
  have hsq := Real.sq_sqrt (show (0 : ℝ) ≤ 3 by norm_num)
  rw [h] at hsq
  norm_num at hsq

/-- Claim C2, amended: calibration.py's `cost_function` is the root of the
sum of the squared per-constraint errors (its square recovers that sum and
it is non-negative), while heston_pricer.py's `objective_function` is the
root of the sum of the absolute values of the errors instead. -/
theorem calibration_objective_characterization (errs : List ℚ → List ℝ) (params : List ℚ) :
    cost_function errs params ^ 2 = ((errs params).map (fun e => e ^ 2)).sum ∧
    0 ≤ cost_function errs params ∧
    objective_function errs params ^ 2 = ((errs params).map (fun e => |e|)).sum ∧
    0 ≤ objective_function errs params := by
  refine ⟨?_, Real.sqrt_nonneg _, ?_, Real.sqrt_nonneg _⟩
  · exact Real.sq_sqrt (List.sum_nonneg (by
      intro x hx
      obtain ⟨e, _, rfl⟩ := List.mem_map.mp hx
      positivity))
  · exact Real.sq_sqrt (List.sum_nonneg (by
      intro x hx
      obtain ⟨e, _, rfl⟩ := List.mem_map.mp hx
      positivity))

/-- Claim C3: at an intermediate observation date of an active path the
autocall comparison comes first, then the coupon comparison, then the
shortfall branch, and both barrier comparisons are non-strict: a level at
least the autocall barrier (even one also at or above the coupon barrier)
triggers the autocall branch and marks the path called; a level below the
autocall barrier but at least the coupon barrier pays the coupon and resets
the unpaid-coupon counter; a level below both barriers pays nothing and
increments the counter. -/
theorem intermediate_barrier_ordering (spec : ProductSpecs) (strike : ℚ)
    (expiration : ℤ) (mem : ℕ) (date : ℤ) (level : ℚ) (unpaid : ℕ)
    (hdate : date ≠ expiration) :
    (spec.autocall_barrier ≤ level →
      observeStep spec strike expiration mem date level unpaid =
        ⟨spec.notional * (1 + spec.coupon_rate * ((1 + unpaid * mem : ℕ) : ℚ)),
          unpaid, true⟩) ∧
    (level < spec.autocall_barrier → spec.coupon_barrier ≤ level →
      observeStep spec strike expiration mem date level unpaid =
        ⟨spec.notional * (spec.coupon_rate * ((1 + unpaid * mem : ℕ) : ℚ)), 0, false⟩) ∧
    (level < spec.autocall_barrier → level < spec.coupon_barrier →
      observeStep spec strike expiration mem date level unpaid =
        ⟨0, unpaid + 1, false⟩) := by
  refine ⟨?_, ?_, ?_⟩
  · intro hac
    rw [observeStep, if_neg hdate, if_pos hac]
  · intro hac hcb
    rw [observeStep, if_neg hdate, if_neg (not_le.mpr hac), if_pos hcb]
  · intro hac hcb
    rw [observeStep, if_neg hdate, if_neg (not_le.mpr hac), if_neg (not_le.mpr hcb)]

/-- An Athena-style product specification with overlapping barriers
(autocall barrier = coupon barrier = 1), used as concrete input by the
witnesses. -/
def specW : ProductSpecs :=
  ⟨[100, 200], 1000000, 1, 1, 6/10, 1/20, true, [], fun x => x / 100⟩

/-- Witness for C3 at a tie: with `specW`'s overlapping barriers and a
normalized level exactly equal to both barriers at a non-final date, the
step takes the autocall branch (non-strict comparison, autocall before
coupon) and marks the path called. -/
theorem intermediate_barrier_ordering_witness :
    observeStep specW 100 200 1 100 1 2 =
      ⟨specW.notional * (1 + specW.coupon_rate * ((1 + 2 * 1 : ℕ) : ℚ)), 2, true⟩ :=
  (intermediate_barrier_ordering specW 100 200 1 100 1 2 (by decide)).1 (by decide)

/-- Claim C4: with the memory feature on, a path that is below both the
coupon and the autocall barrier at two consecutive intermediate observation
dates and then reaches at least the coupon barrier (but stays below the
autocall barrier) at the third intermediate date is credited
`notional * coupon_rate * 3` at that third date (discounted by that date's
discount factor, the two missed dates contributing nothing), and the
unpaid-coupon counter is reset to 0 afterwards. -/
theorem memory_coupon_catch_up (ctx : PricerCtx) (spec : ProductSpecs)
    (expiration d1 d2 d3 : ℤ) (l1 l2 l3 : ℚ)
    (hm : spec.has_memory = true)
    (h1e : d1 ≠ expiration) (h2e : d2 ≠ expiration) (h3e : d3 ≠ expiration)
    (h1a : l1 < spec.autocall_barrier) (h1c : l1 < spec.coupon_barrier)
    (h2a : l2 < spec.autocall_barrier) (h2c : l2 < spec.coupon_barrier)
    (h3a : l3 < spec.autocall_barrier) (h3c : spec.coupon_barrier ≤ l3)
    (hd3 : ctx.valuation_date < d3) :
    (pathLoop ctx spec expiration (memoryFactor spec)
        [(d1, l1), (d2, l2), (d3, l3)] ⟨0, 0, false⟩).unpaid_coupons = 0 ∧
    (pathLoop ctx spec expiration (memoryFactor spec)
        [(d1, l1), (d2, l2), (d3, l3)] ⟨0, 0, false⟩).total_pv =
      spec.notional * spec.coupon_rate * 3 * ctx.discount d3 := by
  have hmf : memoryFactor spec = 1 := by simp [memoryFactor, hm]
  have s1 : observeStep spec ctx.strike_price expiration 1 d1 l1 0 = ⟨0, 1, false⟩ := by
    rw [observeStep, if_neg h1e, if_neg (not_le.mpr h1a), if_neg (not_le.mpr h1c)]
  have s2 : observeStep spec ctx.strike_price expiration 1 d2 l2 1 = ⟨0, 2, false⟩ := by
    rw [observeStep, if_neg h2e, if_neg (not_le.mpr h2a), if_neg (not_le.mpr h2c)]
  have s3 : observeStep spec ctx.strike_price expiration 1 d3 l3 2 =
      ⟨spec.notional * (spec.coupon_rate * ((1 + 2 * 1 : ℕ) : ℚ)), 0, false⟩ := by
    rw [observeStep, if_neg h3e, if_neg (not_le.mpr h3a), if_pos h3c]
  rw [hmf]
  simp only [pathLoop, s1, s2, s3, Bool.false_eq_true, if_false, zero_mul, add_zero,
    ite_self, if_pos hd3]
  norm_num
  exact Or.inl (by ring)

/-- A Phoenix-style product specification (autocall barrier 1, coupon
barrier 0.7) with the memory feature, used as concrete input by the
witnesses. -/
def specW2 : ProductSpecs :=
  ⟨[100, 200], 1000000, 1, 7/10, 6/10, 1/20, true, [], fun x => x / 100⟩

/-- A concrete market context for the witnesses: valuation date 0, strike
100, unit discount factors, and an Actual/360-style year fraction. -/
def ctxW : PricerCtx :=
  ⟨0, 100, fun _ => 1, fun a b => ((b - a : ℤ) : ℚ) / 360⟩

/-- Witness for C4: on the Phoenix-style product, a path at level 0.5 on
dates 10 and 20 and at exactly the coupon barrier 0.7 on date 30 is
credited three coupons at date 30 and ends with a cleared counter. -/
theorem memory_coupon_catch_up_witness :
    (pathLoop ctxW specW2 200 (memoryFactor specW2)
        [(10, 1/2), (20, 1/2), (30, 7/10)] ⟨0, 0, false⟩).unpaid_coupons = 0 ∧
    (pathLoop ctxW specW2 200 (memoryFactor specW2)
        [(10, 1/2), (20, 1/2), (30, 7/10)] ⟨0, 0, false⟩).total_pv =
      specW2.notional * specW2.coupon_rate * 3 * ctxW.discount 30 :=
  memory_coupon_catch_up ctxW specW2 200 10 20 30 (1/2) (1/2) (7/10)
    rfl (by decide) (by decide) (by decide)
    (by norm_num [specW2]) (by norm_num [specW2])
    (by norm_num [specW2]) (by norm_num [specW2])
    (by norm_num [specW2]) (by norm_num [specW2])
    (by norm_num [ctxW])

/-- Claim C5: whenever the valuation date is on or after the final coupon
date, the pricer returns exactly 0, for every path source and path count
(no path data is consulted). -/
theorem price_zero_after_final_date (ctx : PricerCtx) (spec : ProductSpecs)
    (pathSource : ℤ → List ℚ → ℕ → List ℚ) (num_paths : ℤ) (expiration : ℤ)
    (hl : spec.coupon_dates.getLast? = some expiration)
    (h : expiration ≤ ctx.valuation_date) :
    price_autocallable_note ctx spec pathSource num_paths = Except.ok 0 := by
  obtain ⟨d0, hd0⟩ : ∃ d0, spec.coupon_dates.head? = some d0 := by
    cases hcd : spec.coupon_dates with
    | nil => rw [hcd] at hl; simp at hl
    | cons a l => exact ⟨a, rfl⟩
  simp only [price_autocallable_note, hl, hd0, if_pos h]

/-- Witness for C5: a product whose last coupon date 200 is on the
valuation date 200 prices to exactly 0. -/
theorem price_zero_after_final_date_witness :
    price_autocallable_note ⟨200, 100, fun _ => 1, fun a b => ((b - a : ℤ) : ℚ) / 360⟩
      specW2 (fun _ _ _ => [100, 100, 100]) 3 = Except.ok 0 :=
  price_zero_after_final_date ⟨200, 100, fun _ => 1, fun a b => ((b - a : ℤ) : ℚ) / 360⟩
    specW2 (fun _ _ _ => [100, 100, 100]) 3 200 (by norm_num [specW2]) (by norm_num)

/-- The initial value is bounded by a left fold of `max` over a list. -/
lemma le_foldl_max_init (l : List ℚ) : ∀ a : ℚ, a ≤ l.foldl max a := by
  induction l with
  | nil => intro a; simp
  | cons x xs ih =>
    intro a
    calc a ≤ max a x := le_max_left a x
    _ ≤ xs.foldl max (max a x) := ih (max a x)

/-- Every member of a list is bounded by a left fold of `max` over it. -/
lemma le_foldl_max_mem (l : List ℚ) : ∀ (a x : ℚ), x ∈ l → x ≤ l.foldl max a := by
  induction l with
  | nil => intro a x hx; simp at hx
  | cons y ys ih =>
    intro a x hx
    rcases List.mem_cons.mp hx with hxy | hxs
    · subst hxy
      calc x ≤ max a x := le_max_right a x
      _ ≤ ys.foldl max (max a x) := le_foldl_max_init ys (max a x)
    · exact ih (max a y) x hxs

/-- Claim C6: if the valuation date is at or after the first coupon date and
strictly before the last one, and some already-fixed past level is at least
`autocall_barrier * strike`, the pricer returns exactly 0, for every path
source and path count. -/
theorem price_zero_when_already_autocalled (ctx : PricerCtx) (spec : ProductSpecs)
    (pathSource : ℤ → List ℚ → ℕ → List ℚ) (num_paths : ℤ) (d0 expiration : ℤ)
    (hh : spec.coupon_dates.head? = some d0)
    (hl : spec.coupon_dates.getLast? = some expiration)
    (hfirst : d0 ≤ ctx.valuation_date)
    (hlast : ctx.valuation_date < expiration)
    (hex : ∃ p ∈ spec.past_fixings,
      spec.autocall_barrier * ctx.strike_price ≤ p.2) :
    price_autocallable_note ctx spec pathSource num_paths = Except.ok 0 := by
  obtain ⟨p, hp, hpge⟩ := hex
  have hfix : ∃ q qs, spec.past_fixings.map Prod.snd = q :: qs := by
    cases hpf : spec.past_fixings with
    | nil => rw [hpf] at hp; simp at hp
    | cons q qs => exact ⟨q.2, qs.map Prod.snd, by simp [hpf]⟩
  obtain ⟨q, qs, hfix⟩ := hfix
  have hmem : p.2 ∈ q :: qs := by
    rw [← hfix]
    exact List.mem_map.mpr ⟨p, hp, rfl⟩
  have hmax : spec.autocall_barrier * ctx.strike_price ≤ qs.foldl max q := by
    rcases List.mem_cons.mp hmem with hq | hqs
    · exact le_trans hpge (hq ▸ le_foldl_max_init qs q)
    · exact le_trans hpge (le_foldl_max_mem qs q p.2 hqs)
  simp only [price_autocallable_note, hh, hl, if_neg (not_le.mpr hlast),
    if_pos hfirst, hfix, if_pos hmax]

/-- A product specification seasoned past its first coupon date, with one
past fixing already at the autocall level, used by the C6 witness. -/
def specFixed : ProductSpecs :=
  ⟨[100, 200], 1000000, 1, 7/10, 6/10, 1/20, true, [(100, 120)], fun x => x / 100⟩

/-- Witness for C6: at valuation date 150 (after the first coupon date 100,
before the last 200) a past fixing of 120 at date 100 is at least
`autocall_barrier * strike = 100`, so the price is exactly 0. -/
theorem price_zero_when_already_autocalled_witness :
    price_autocallable_note ⟨150, 100, fun _ => 1, fun a b => ((b - a : ℤ) : ℚ) / 360⟩
      specFixed (fun _ _ _ => [100, 100]) 2 = Except.ok 0 :=
  price_zero_when_already_autocalled
    ⟨150, 100, fun _ => 1, fun a b => ((b - a : ℤ) : ℚ) / 360⟩
    specFixed (fun _ _ _ => [100, 100]) 2 100 200
    (by norm_num [specFixed]) (by norm_num [specFixed]) (by norm_num) (by norm_num)
    ⟨(100, 120), by norm_num [specFixed], by norm_num [specFixed]⟩

/-- Claim C10, counterexample: with an empty past-fixings mapping and a
valuation date (200) at or after the first coupon date (100), the pricer
can still return a numeric value — here the last coupon date is also 200,
so the matured short-circuit fires first and returns exactly 0 before the
empty-`max` line is ever reached. -/
theorem price_empty_fixings_can_return_zero :
    specW2.coupon_dates.head? = some 100 ∧
    (100 : ℤ) ≤ (200 : ℤ) ∧
    specW2.past_fixings = [] ∧
    price_autocallable_note ⟨200, 100, fun _ => 1, fun a b => ((b - a : ℤ) : ℚ) / 360⟩
      specW2 (fun _ _ _ => [100, 100]) 2 = Except.ok 0 := by
  refine ⟨rfl, by norm_num, rfl, rfl⟩

/-- Claim C10, amended: if the valuation date is at or after the first
coupon date but strictly before the last one and the past-fixings mapping
is empty, the pricer does not return a numeric value: the already-autocalled
check takes the maximum of an empty collection and the call fails. -/
theorem price_empty_fixings_before_expiry_errors (ctx : PricerCtx) (spec : ProductSpecs)
    (pathSource : ℤ → List ℚ → ℕ → List ℚ) (num_paths : ℤ) (d0 expiration : ℤ)
    (hh : spec.coupon_dates.head? = some d0)
    (hl : spec.coupon_dates.getLast? = some expiration)
    (hfirst : d0 ≤ ctx.valuation_date)
    (hlast : ctx.valuation_date < expiration)
    (hpf : spec.past_fixings = []) :
    price_autocallable_note ctx spec pathSource num_paths =
      Except.error PricingError.emptyMax := by
  simp only [price_autocallable_note, hh, hl, if_neg (not_le.mpr hlast),
    if_pos hfirst, hpf, List.map_nil]

/-- Witness for the amended C10: `specW2` has no past fixings; at valuation
date 150, after the first coupon date 100 and before the last 200, pricing
fails with the empty-`max` error. -/
theorem price_empty_fixings_before_expiry_errors_witness :
    price_autocallable_note ⟨150, 100, fun _ => 1, fun a b => ((b - a : ℤ) : ℚ) / 360⟩
      specW2 (fun _ _ _ => [100, 100]) 2 = Except.error PricingError.emptyMax :=
  price_empty_fixings_before_expiry_errors
    ⟨150, 100, fun _ => 1, fun a b => ((b - a : ℤ) : ℚ) / 360⟩
    specW2 (fun _ _ _ => [100, 100]) 2 100 200
    (by norm_num [specW2]) (by norm_num [specW2]) (by norm_num) (by norm_num) rfl

/-- Claim C7, counterexample: for a strictly increasing observation grid
with three entries and `path_count = 0` (which is ≤ 0), `generate_paths`
silently returns an empty path batch instead of failing with an
invalid-argument error. -/
theorem generate_paths_zero_count_returns_batch :
    (0 : ℤ) < 10 ∧ (10 : ℤ) < 20 ∧
    2 ≤ ([(0 : ℤ), 10, 20]).length ∧
    (0 : ℤ) ≤ 0 ∧
    generate_paths (fun a b => ((b - a : ℤ) : ℚ) / 360) [0, 10, 20]
      (fun _ _ _ => [100, 100, 100]) 0 = Except.ok [] := by
  refine ⟨by decide, by decide, by decide, le_refl 0, rfl⟩

/-- Claim C7, amended: `generate_paths` performs no validation of its own
arguments.  For every observation-date list — including lists with fewer
than two entries or out of order — and every non-negative path count it
returns a batch with `path_count` rows; only a negative path count fails,
and only through the array-allocation step.  Grid validation, if any, is
left to the external path-generator collaborator. -/
theorem generate_paths_no_validation (yearFraction : ℤ → ℤ → ℚ)
    (observation_dates : List ℤ) (pathSource : ℤ → List ℚ → ℕ → List ℚ)
    (num_paths : ℤ) :
    (0 ≤ num_paths →
      generate_paths yearFraction observation_dates pathSource num_paths =
        Except.ok ((List.range num_paths.toNat).map
          (pathSource (gridSteps (timeGrid yearFraction observation_dates))
            (timeGrid yearFraction observation_dates))) ∧
      ((List.range num_paths.toNat).map
          (pathSource (gridSteps (timeGrid yearFraction observation_dates))
            (timeGrid yearFraction observation_dates))).length = num_paths.toNat) ∧
    (num_paths < 0 →
      generate_paths yearFraction observation_dates pathSource num_paths =
        Except.error PricingError.negativePaths) := by
  constructor
  · intro h
    constructor
    · rw [generate_paths, if_neg (not_lt.mpr h)]
    · simp
  · intro h
    rw [generate_paths, if_pos h]

/-- Witness for the amended C7: a two-entry grid that is not increasing is
accepted without complaint and one path is produced. -/
theorem generate_paths_no_validation_witness :
    generate_paths (fun a b => ((b - a : ℤ) : ℚ) / 360) [5, 3]
      (fun _ _ _ => [100, 100]) 1 = Except.ok [[100, 100]] := by
  have h := (generate_paths_no_validation (fun a b => ((b - a : ℤ) : ℚ) / 360) [5, 3]
    (fun _ _ _ => [100, 100]) 1).1 (by norm_num)
  exact h.1

/-- Claim C8, counterexample: for a three-point observation grid the
simulator's `grid_steps` is `(3 - 1) * 2 = 4`, which is strictly less than
twice the number of observation points (6); the factor 2 is a hard-coded
literal, not a tunable parameter of `generate_paths`. -/
theorem grid_steps_below_twice_observation_points :
    gridSteps (timeGrid (fun a b => ((b - a : ℤ) : ℚ) / 360) [0, 180, 360]) = 4 ∧
    ¬ (2 * 3 ≤ gridSteps (timeGrid (fun a b => ((b - a : ℤ) : ℚ) / 360) [0, 180, 360])) := by
  refine ⟨rfl, by decide⟩

/-- Claim C8, amended: for every observation-date list the simulator's
random-sequence dimension `grid_steps` equals exactly
`2 * (number of observation points - 1)` — two per observation interval,
with the factor 2 fixed in the code — and is therefore always strictly less
than twice the number of observation points. -/
theorem grid_steps_two_per_interval (yearFraction : ℤ → ℤ → ℚ)
    (observation_dates : List ℤ) :
    gridSteps (timeGrid yearFraction observation_dates) =
      2 * ((observation_dates.length : ℤ) - 1) ∧
    gridSteps (timeGrid yearFraction observation_dates) <
      2 * (observation_dates.length : ℤ) := by
  have hlen : (timeGrid yearFraction observation_dates).length = observation_dates.length := by
    cases observation_dates with
    | nil => rfl
    | cons d0 rest => simp [timeGrid]
  constructor
  · rw [gridSteps, hlen]; ring
  · rw [gridSteps, hlen]
    have : (0 : ℤ) ≤ (observation_dates.length : ℤ) := Int.ofNat_nonneg _
    linarith

/-- Every payoff set by the loop body is non-negative when the notional is
non-negative, the coupon rate is non-negative, and the terminal payoff
formula is bounded below by 0. -/
lemma observeStep_payoff_nonneg (spec : ProductSpecs) (strike : ℚ) (expiration : ℤ)
    (mem : ℕ) (date : ℤ) (level : ℚ) (unpaid : ℕ)
    (hn : 0 ≤ spec.notional) (hc : 0 ≤ spec.coupon_rate)
    (hf : ∀ x, 0 ≤ spec.final_payoff_formula x) :
    0 ≤ (observeStep spec strike expiration mem date level unpaid).payoff := by
  have hcast : (0 : ℚ) ≤ ((1 + unpaid * mem : ℕ) : ℚ) := Nat.cast_nonneg _
  rw [observeStep]
  split_ifs <;> simp only
  · exact mul_nonneg hn (by nlinarith)
  · exact hn
  · exact mul_nonneg hn (hf _)
  · exact mul_nonneg hn (by nlinarith)
  · exact mul_nonneg hn (mul_nonneg hc hcast)
  · exact le_refl 0

/-- Running the per-path loop from a state with non-negative accumulated
value keeps the accumulated value non-negative, under the same payoff
hypotheses plus non-negative discount factors. -/
lemma pathLoop_total_pv_nonneg (ctx : PricerCtx) (spec : ProductSpecs)
    (expiration : ℤ) (mem : ℕ)
    (hn : 0 ≤ spec.notional) (hc : 0 ≤ spec.coupon_rate)
    (hf : ∀ x, 0 ≤ spec.final_payoff_formula x)
    (hd : ∀ d, 0 ≤ ctx.discount d) :
    ∀ (l : List (ℤ × ℚ)) (s : StepState), 0 ≤ s.total_pv →
      0 ≤ (pathLoop ctx spec expiration mem l s).total_pv := by
  intro l
  induction l with
  | nil => intro s hs; exact hs
  | cons hd_pair tl ih =>
    intro s hs
    obtain ⟨date, level⟩ := hd_pair
    rw [pathLoop]
    split
    · exact hs
    · apply ih
      simp only
      split
      · have hpay : 0 ≤ (observeStep spec ctx.strike_price expiration mem date level
            s.unpaid_coupons).payoff * ctx.discount date :=
          mul_nonneg
            (observeStep_payoff_nonneg spec ctx.strike_price expiration mem date level
              s.unpaid_coupons hn hc hf) (hd date)
        linarith
      · exact hs

/-- Every numeric (non-NaN) Monte Carlo mean of the per-path present values
is non-negative under the payoff and discount hypotheses. -/
lemma computePV_nonneg (ctx : PricerCtx) (spec : ProductSpecs) (expiration : ℤ)
    (paths : List (List ℚ))
    (hn : 0 ≤ spec.notional) (hc : 0 ≤ spec.coupon_rate)
    (hf : ∀ x, 0 ≤ spec.final_payoff_formula x)
    (hd : ∀ d, 0 ≤ ctx.discount d) :
    ∀ m, computePV ctx spec expiration paths = some m → 0 ≤ m := by
  intro m h
  rw [computePV] at h
  split at h
  · exact absurd h (by simp)
  · rename_i pv pvs heq
    rw [Option.some.injEq] at h
    subst h
    apply div_nonneg
    · apply List.sum_nonneg
      intro x hx
      have hx' : x ∈ paths.map (pathPV ctx spec expiration) := heq ▸ hx
      obtain ⟨path, _, rfl⟩ := List.mem_map.mp hx'
      exact pathLoop_total_pv_nonneg ctx spec expiration (memoryFactor spec) hn hc hf hd _ _
        (le_refl 0)
    · exact Nat.cast_nonneg _

/-- Any numeric value produced by the Monte Carlo stage is non-negative
under the payoff and discount hypotheses (the empty batch does not produce
a numeric value: its NaN mean is the distinct `nanMean` outcome). -/
lemma priceMC_ok_nonneg (ctx : PricerCtx) (spec : ProductSpecs)
    (pathSource : ℤ → List ℚ → ℕ → List ℚ) (num_paths : ℤ) (expiration : ℤ)
    (hn : 0 ≤ spec.notional) (hc : 0 ≤ spec.coupon_rate)
    (hf : ∀ x, 0 ≤ spec.final_payoff_formula x)
    (hd : ∀ d, 0 ≤ ctx.discount d)
    (r : ℚ) (h : priceMC ctx spec pathSource num_paths expiration = Except.ok r) :
    0 ≤ r := by
  rw [priceMC] at h
  split at h
  · exact absurd h (by simp)
  · split at h
    · split at h
      · exact absurd h (by simp)
      · rename_i m heq
        rw [Except.ok.injEq] at h
        subst h
        exact computePV_nonneg ctx spec expiration _ hn hc hf hd m heq
    · split at h
      · exact absurd h (by simp)
      · split at h
        · exact absurd h (by simp)
        · rename_i m heq
          rw [Except.ok.injEq] at h
          subst h
          exact computePV_nonneg ctx spec expiration _ hn hc hf hd m heq

/-- Claim C9: for every product specification with positive notional,
non-negative coupon rate and a terminal payoff function bounded below by 0,
and for every path batch (every path source and path count), any numeric
value returned by the pricer is non-negative.  Non-negative discount
factors are assumed, as the curve collaborator's contract guarantees
factors in (0, 1].  A zero-path batch yields no numeric value at all: the
program returns the NaN mean of an empty payoff list, which the embedding
keeps as the distinct `nanMean` outcome, outside this theorem's
`Except.ok` hypothesis. -/
theorem price_autocallable_note_nonneg (ctx : PricerCtx) (spec : ProductSpecs)
    (pathSource : ℤ → List ℚ → ℕ → List ℚ) (num_paths : ℤ)
    (hn : 0 < spec.notional) (hc : 0 ≤ spec.coupon_rate)
    (hf : ∀ x, 0 ≤ spec.final_payoff_formula x)
    (hd : ∀ d, 0 ≤ ctx.discount d)
    (r : ℚ) (h : price_autocallable_note ctx spec pathSource num_paths = Except.ok r) :
    0 ≤ r := by
  have hn' : 0 ≤ spec.notional := le_of_lt hn
  rw [price_autocallable_note] at h
  split at h
  · split_ifs at h with h1 h2
    · rw [Except.ok.injEq] at h; exact h ▸ le_refl 0
    · split at h
      · exact absurd h (by simp)
      · split_ifs at h with h3
        · rw [Except.ok.injEq] at h; exact h ▸ le_refl 0
        · exact priceMC_ok_nonneg ctx spec pathSource num_paths _ hn' hc hf hd r h
    · exact priceMC_ok_nonneg ctx spec pathSource num_paths _ hn' hc hf hd r h
  · exact absurd h (by simp)

/-- A Phoenix-style product whose terminal payoff formula is bounded below
by 0, used by the C9 witness. -/
def specW3 : ProductSpecs :=
  ⟨[100, 200], 1000000, 1, 7/10, 6/10, 1/20, true, [], fun x => |x| / 100⟩

/-- Witness for C9: a single path that autocalls at the first observation
date prices to 1050000 (notional plus one coupon under unit discounting),
and that value is non-negative by the theorem. -/
theorem price_autocallable_note_nonneg_witness :
    price_autocallable_note ⟨0, 100, fun _ => 1, fun a b => ((b - a : ℤ) : ℚ) / 360⟩
      specW3 (fun _ _ _ => [100, 200, 80]) 1 = Except.ok 1050000 ∧
    (0 : ℚ) ≤ 1050000 := by
  have heval : price_autocallable_note ⟨0, 100, fun _ => 1, fun a b => ((b - a : ℤ) : ℚ) / 360⟩
      specW3 (fun _ _ _ => [100, 200, 80]) 1 = Except.ok 1050000 := by
    norm_num [price_autocallable_note, priceMC, generate_paths, computePV, pathPV, pathLoop,
      observeStep, memoryFactor, specW3, timeGrid, gridSteps, List.range, List.range.loop,
      List.filter, List.zip, List.zipWith, List.lookup]
  refine ⟨heval, ?_⟩
  exact price_autocallable_note_nonneg ⟨0, 100, fun _ => 1, fun a b => ((b - a : ℤ) : ℚ) / 360⟩
    specW3 (fun _ _ _ => [100, 200, 80]) 1
    (by norm_num [specW3]) (by norm_num [specW3])
    (fun x => by simp only [specW3]; positivity) (fun d => by norm_num)
    1050000 heval
